import Mathlib

/-!
Verification of the otrade Adaptive Decision & Risk Engine.

Shallow embedding of the core of the repository:
- `risk_manager.py` (`RiskManager`): daily rotation, trade gate, position sizing;
- `mtf_analyzer.py` (`MultiTimeframeAnalyzer.get_market_regime`): regime classifier;
- `neural_brain.py` (`NeuralTradingBrain`): strategy-weight learning and reads;
- `ai_brain.py` (`AdvancedAIBrain.should_close_position`): position-exit rules;
- `main.py` (`TradingBot._trail_stop`): trailing-stop step.

Python floats are modelled as rationals (`ℚ`); Python dicts as association
lists with first-match lookup; Python's `round(x, 2)` as round-half-to-even
on rationals (banker's rounding, which is what Python's `round` implements).
-/

namespace OTrade

/-- First-match lookup in an association list (Python `dict[k]` /
`dict.get(k)` for lists whose keys are unique, as dict keys are). -/
def alookup {κ β : Type} [DecidableEq κ] : List (κ × β) → κ → Option β
  | [], _ => none
  | (k, v) :: rest, a => if a = k then some v else alookup rest a

/-- Insert-or-replace in an association list (Python `dict[k] = v`,
SQL `INSERT OR REPLACE`). Replaces the first binding of the key, else
appends a new one. -/
def upsert {κ β : Type} [DecidableEq κ] : List (κ × β) → κ → β → List (κ × β)
  | [], k, v => [(k, v)]
  | (k', v') :: rest, k, v =>
      if k = k' then (k, v) :: rest else (k', v') :: upsert rest k v

/-- Whether the first list is a prefix of the second. -/
def listPrefixOf : List Char → List Char → Bool
  | [], _ => true
  | _ :: _, [] => false
  | a :: as, b :: bs => a = b && listPrefixOf as bs

/-- Whether the first list occurs contiguously inside the second. -/
def listInfixOf (n : List Char) : List Char → Bool
  | [] => n.isEmpty
  | b :: bs => listPrefixOf n (b :: bs) || listInfixOf n bs

/-- Python's substring test `needle in hay` for strings. -/
def pyIn (needle hay : String) : Bool :=
  listInfixOf needle.toList hay.toList

/-- Round a rational to the nearest integer, ties to the even integer:
the rounding used by Python's builtin `round`. -/
def roundHalfEven (q : ℚ) : ℤ :=
  if q - ⌊q⌋ < 1/2 then ⌊q⌋
  else if 1/2 < q - ⌊q⌋ then ⌊q⌋ + 1
  else if ⌊q⌋ % 2 = 0 then ⌊q⌋ else ⌊q⌋ + 1

/-- Python `round(q, 2)`. -/
def roundTo2 (q : ℚ) : ℚ :=
  (roundHalfEven (100 * q) : ℚ) / 100

/-! ## Risk manager (`risk_manager.py`) -/

/-- The configuration values `RiskManager` reads from `config`
(`config.py`: `MAX_RISK_PER_TRADE`, default 0.05; `MAX_DAILY_TRADES`,
default 100). -/
structure RMConfig where
  max_risk_per_trade : ℚ
  max_daily_trades : ℕ

/-- One row of the `trades` table, restricted to the columns
`_save_daily_summary` aggregates over: the closing calendar date
(`DATE(closed_at)`, `none` while the trade is open) and the realized
profit. Calendar dates are day indices. -/
structure TradeRow where
  closed_date : Option ℕ
  profit : ℚ

/-- One row of the `daily_summary` table. -/
structure DailySummaryRow where
  trades : ℕ
  wins : ℕ
  losses : ℕ
  gross_profit : ℚ
  gross_loss : ℚ
  net_profit : ℚ
  max_drawdown : ℚ
deriving DecidableEq

/-- The mutable state of a `RiskManager` instance together with its two
persistent tables that the daily rotation touches. `max_consecutive_losses`
is set to 5 in `__init__`. -/
structure RMState where
  daily_trades : ℕ
  daily_pnl : ℚ
  last_reset : ℕ
  consecutive_losses : ℕ
  max_consecutive_losses : ℕ
  trades : List TradeRow
  daily_summary : List (ℕ × DailySummaryRow)

/-- The rows of `trades` whose `DATE(closed_at)` equals the given date
(the `WHERE` clause of the aggregate query in `_save_daily_summary`). -/
def closed_on (st : RMState) (d : ℕ) : List TradeRow :=
  st.trades.filter (fun t => t.closed_date = some d)

/-- The aggregate row `_save_daily_summary` computes for the given date:
`COUNT(*)`, wins (`profit > 0`), losses (`profit <= 0`), gross profit,
gross loss, net = gross profit + gross loss, max_drawdown written as 0. -/
def daily_aggregate (st : RMState) (d : ℕ) : DailySummaryRow :=
  let rows := closed_on st d
  { trades := rows.length
    wins := (rows.filter (fun t => 0 < t.profit)).length
    losses := (rows.filter (fun t => ¬ 0 < t.profit)).length
    gross_profit := (rows.map (fun t => if 0 < t.profit then t.profit else 0)).sum
    gross_loss := (rows.map (fun t => if t.profit < 0 then t.profit else 0)).sum
    net_profit := (rows.map (fun t => if 0 < t.profit then t.profit else 0)).sum
      + (rows.map (fun t => if t.profit < 0 then t.profit else 0)).sum
    max_drawdown := 0 }

/-- `RiskManager._save_daily_summary`: aggregate the trades closed on
`last_reset`'s date and, only if at least one row matched
(`if row and row[0]:`), insert-or-replace the summary row for that date. -/
def save_daily_summary (st : RMState) : RMState :=
  if (closed_on st st.last_reset).length ≠ 0 then
    { st with daily_summary :=
        upsert st.daily_summary st.last_reset (daily_aggregate st st.last_reset) }
  else st

/-- `RiskManager._reset_daily_if_needed`: on the first call observing a
new calendar date, flush the summary for the previous `last_reset` date,
then zero the daily counters and move `last_reset` forward. -/
def reset_daily_if_needed (today : ℕ) (st : RMState) : RMState :=
  if today ≠ st.last_reset then
    { save_daily_summary st with
        daily_trades := 0
        daily_pnl := 0
        last_reset := today }
  else st

/-- `RiskManager.can_trade`: rotate the daily counters if the date
changed, then gate on the daily trade cap and the consecutive-loss
breaker. Returns the post-rotation state with the verdict and reason. -/
def can_trade (cfg : RMConfig) (today : ℕ) (st : RMState) :
    RMState × Bool × String :=
  let st := reset_daily_if_needed today st
  if cfg.max_daily_trades ≤ st.daily_trades then
    (st, false, "Daily trade limit reached")
  else if st.max_consecutive_losses ≤ st.consecutive_losses then
    (st, false, "Consecutive loss limit reached")
  else (st, true, "")

/-- `RiskManager.calculate_position_size`. -/
def calculate_position_size (cfg : RMConfig) (st : RMState)
    (balance confidence sl_pips : ℚ) (symbol : String) : ℚ :=
  let base_risk := cfg.max_risk_per_trade
  let adjusted_risk := base_risk * confidence
  let adjusted_risk :=
    if 3 ≤ st.consecutive_losses then adjusted_risk * (1/2) else adjusted_risk
  let adjusted_risk :=
    if st.daily_pnl < 0 then adjusted_risk * (3/4) else adjusted_risk
  let risk_amount := balance * adjusted_risk
  let pip_value : ℚ :=
    if symbol = "XAUUSD" then 1
    else if pyIn "USTECH" symbol then 1
    else 10
  let sl_pips := if sl_pips ≤ 0 then 50 else sl_pips
  let lot_size := risk_amount / (sl_pips * pip_value)
  let lot_size := max (1/100) (min 10 lot_size)
  roundTo2 lot_size

/-! ## Multi-timeframe regime classifier (`mtf_analyzer.py`) -/

/-- The fields of `TimeframeAnalysis` the regime classifier reads. The
trend and volatility classifications are the strings produced by
`_determine_trend` / `_determine_volatility`. -/
structure TimeframeAnalysis where
  trend : String
  strength : ℚ
  momentum : String
  volatility : String
  key_levels : List (String × ℚ)
  signals : List String

/-- `MarketRegime` (dataclass in `mtf_analyzer.py`). -/
structure MarketRegime where
  regime : String
  confidence : ℚ
  description : String
deriving DecidableEq

/-- `MultiTimeframeAnalyzer.timeframe_weights`. -/
def timeframe_weights : List (String × ℚ) :=
  [("MN1", 15/100), ("W1", 15/100), ("D1", 20/100), ("H4", 15/100),
   ("H1", 15/100), ("M30", 8/100), ("M15", 7/100), ("M5", 3/100),
   ("M1", 2/100)]

/-- `self.timeframe_weights.get(tf, 0.05)`. -/
def weightOf (tf : String) : ℚ :=
  (alookup timeframe_weights tf).getD (5/100)

/-- The scoring loop of `get_market_regime`: accumulates
(bullish_score, bearish_score, total_weight) over the analyses, adding
`weight × strength` to the bullish side when the trend contains
"bullish", else to the bearish side when it contains "bearish". -/
def regimeScores : List (String × TimeframeAnalysis) → ℚ × ℚ × ℚ
  | [] => (0, 0, 0)
  | (tf, a) :: rest =>
      let s := regimeScores rest
      let w := weightOf tf
      if pyIn "bullish" a.trend then (s.1 + w * a.strength, s.2.1, s.2.2 + w)
      else if pyIn "bearish" a.trend then (s.1, s.2.1 + w * a.strength, s.2.2 + w)
      else (s.1, s.2.1, s.2.2 + w)

/-- `MultiTimeframeAnalyzer.get_market_regime`. The analyses dict is an
association list keyed by timeframe. -/
def get_market_regime (analyses : List (String × TimeframeAnalysis)) :
    MarketRegime :=
  if analyses.isEmpty then ⟨"unknown", 0, "No data available"⟩
  else
    let s := regimeScores analyses
    let total_weight := s.2.2
    if total_weight = 0 then ⟨"unknown", 0, "No analysis data"⟩
    else
      let bullish_score := s.1 / total_weight
      let bearish_score := s.2.1 / total_weight
      let volatility_high :=
        (analyses.filter (fun p => p.2.volatility = "high")).length
      let volatility_low :=
        (analyses.filter (fun p => p.2.volatility = "low")).length
      if bullish_score > bearish_score * (3/2) ∧ bullish_score > 3/10 then
        ⟨"trending_bullish", min 1 bullish_score,
          "Strong uptrend across multiple timeframes"⟩
      else if bearish_score > bullish_score * (3/2) ∧ bearish_score > 3/10 then
        ⟨"trending_bearish", min 1 bearish_score,
          "Strong downtrend across multiple timeframes"⟩
      else if (volatility_high : ℚ) > (analyses.length : ℚ) / 2 then
        ⟨"volatile", 3/5, "High volatility environment"⟩
      else if (volatility_low : ℚ) > (analyses.length : ℚ) / 2 then
        ⟨"consolidating", 3/5, "Low volatility, consolidation phase"⟩
      else ⟨"ranging", 1/2, "Mixed signals, range-bound market"⟩

/-- The keys of the `key_levels` dict built by
`MultiTimeframeAnalyzer._analyze_single_timeframe` (its values are
indicator math over the candle frame, external to this core). -/
def analyze_key_levels_keys : List String :=
  ["resistance", "support", "pivot", "bb_upper", "bb_lower", "sma_200"]

/-! ## Learning store (`neural_brain.py`) -/

/-- The fields of `TradeMemory` that drive the weight update. The
per-strategy signal snapshot is a dict strategy-name → signal string. -/
structure TradeMemoryW where
  direction : String
  profit : ℚ
  strategy_signals : List (String × String)
  outcome : String

/-- The clamp applied after every weight update:
`max(0.1, min(3.0, w))`. -/
def clampWeight (w : ℚ) : ℚ :=
  max (1/10) (min 3 w)

/-- The per-strategy body of `NeuralTradingBrain._update_learning`:
multiply the weight by the factor selected by (outcome, signal vs
direction), then clamp to [0.1, 3.0]. `α` is `config.LEARNING_RATE`. -/
def updatedWeight (α : ℚ) (outcome direction signal : String) (w : ℚ) : ℚ :=
  let w' :=
    if outcome = "win" then
      if signal = direction then w * (1 + α) else w * (1 - α * (1/2))
    else
      if signal = direction then w * (1 - α) else w * (1 + α * (1/2))
  clampWeight w'

/-- The weight-update loop of `_update_learning`: for each (strategy,
signal) in the snapshot, default the stored weight to 1.0 if unseen,
apply `updatedWeight`, and store the result. -/
def apply_signal_updates (α : ℚ) (outcome direction : String) :
    List (String × String) → List (String × ℚ) → List (String × ℚ)
  | [], ws => ws
  | (strat, sig) :: rest, ws =>
      let old := (alookup ws strat).getD 1
      apply_signal_updates α outcome direction rest
        (upsert ws strat (updatedWeight α outcome direction sig old))

/-- The strategy-weight part of `NeuralTradingBrain._update_learning`
applied to one closed trade. -/
def update_strategy_weights (α : ℚ) (mem : TradeMemoryW)
    (ws : List (String × ℚ)) : List (String × ℚ) :=
  apply_signal_updates α mem.outcome mem.direction mem.strategy_signals ws

/-- `NeuralTradingBrain.get_strategy_weight`:
`self.strategy_weights.get(strategy_name, 1.0)` — the raw stored value,
with no clamping on read. -/
def get_strategy_weight (ws : List (String × ℚ)) (name : String) : ℚ :=
  (alookup ws name).getD 1

/-! ## Position-exit engine (`ai_brain.py`) -/

/-- `Signal` enum from `strategies/base.py`. -/
inductive Signal where
  | buy
  | sell
  | hold
deriving DecidableEq

/-- The fields of a `TradeSignal` read by `should_close_position`. -/
structure TradeSignalE where
  signal : Signal
  strategy : String
  symbol : String
  confidence : ℚ

/-- The fields of a broker position dict read by
`should_close_position` and `_trail_stop`. `type` is "buy" or "sell". -/
structure PositionE where
  ticket : ℕ
  symbol : String
  type : String
  volume : ℚ
  open_price : ℚ
  current_price : ℚ
  profit : ℚ
  sl : ℚ
  tp : ℚ

/-- The signal loop of `AdvancedAIBrain.should_close_position`:
accumulates (opposing_count, total_weight) over the signals for the
position's symbol; a signal opposes when it points against the
position's direction with confidence > 0.6, and contributes its learned
strategy weight. -/
def opposing_totals (ws : List (String × ℚ)) (pos_symbol pos_type : String) :
    List TradeSignalE → ℚ × ℚ
  | [] => (0, 0)
  | sig :: rest =>
      let acc := opposing_totals ws pos_symbol pos_type rest
      if sig.symbol ≠ pos_symbol then acc
      else
        let w := get_strategy_weight ws sig.strategy
        let opp : ℚ :=
          if pos_type = "buy" ∧ sig.signal = Signal.sell ∧ sig.confidence > 3/5
          then w
          else if pos_type = "sell" ∧ sig.signal = Signal.buy ∧
              sig.confidence > 3/5 then w
          else 0
        (acc.1 + opp, acc.2 + w)

/-- `AdvancedAIBrain.should_close_position`. -/
def should_close_position (ws : List (String × ℚ)) (pos : PositionE)
    (signals : List TradeSignalE) (regime : MarketRegime) : Bool × String :=
  let ot := opposing_totals ws pos.symbol pos.type signals
  if 0 < ot.2 ∧ 3/5 < ot.1 / ot.2 then
    (true, "Majority of strategies now opposing position")
  else if pos.type = "buy" ∧ regime.regime = "trending_bearish" ∧
      7/10 < regime.confidence then
    (true, "Market regime shifted bearish")
  else if pos.type = "sell" ∧ regime.regime = "trending_bullish" ∧
      7/10 < regime.confidence then
    (true, "Market regime shifted bullish")
  else (false, "")

/-! ## Trailing stop (`main.py`) -/

/-- `atr_level = primary.key_levels.get('bb_middle', pos['open_price'])`
in `_trail_stop`. -/
def trail_atr_level (pos : PositionE) (primary : TimeframeAnalysis) : ℚ :=
  (alookup primary.key_levels "bb_middle").getD pos.open_price

/-- `profit_pips = abs(pos['current_price'] - pos['open_price'])`. -/
def profit_pips (pos : PositionE) : ℚ :=
  |pos.current_price - pos.open_price|

/-- The `new_sl` computed by the buy branch of `_trail_stop`: at least
break-even, and additionally at least `atr_level` once unrealized profit
exceeds 0.5% of the entry price. -/
def buy_new_sl (pos : PositionE) (primary : TimeframeAnalysis) : ℚ :=
  let new_sl := max pos.sl pos.open_price
  if (5/1000) * pos.open_price < profit_pips pos then
    max new_sl (trail_atr_level pos primary)
  else new_sl

/-- The `new_sl` computed by the sell branch of `_trail_stop`. -/
def sell_new_sl (pos : PositionE) (primary : TimeframeAnalysis) : ℚ :=
  let new_sl := if 0 < pos.sl then min pos.sl pos.open_price
    else pos.open_price
  if (5/1000) * pos.open_price < profit_pips pos then
    min new_sl (trail_atr_level pos primary)
  else new_sl

/-- `TradingBot._trail_stop`. Returns the new stop-loss passed to
`mt5.modify_position(ticket, sl=new_sl)` when the modify call is issued,
`none` otherwise. The stop-loss is the only field the call passes
(`tp` stays `None`, hence unchanged), matching the claim that stop-loss
is the only in-place mutation of an open position. `primary` is the
primary timeframe's analysis (`none` when missing, in which case the
function returns early). -/
def trail_stop (pos : PositionE) (primary : Option TimeframeAnalysis) :
    Option ℚ :=
  match primary with
  | none => none
  | some primary =>
      if pos.type = "buy" then
        if pos.open_price < pos.current_price then
          if pos.sl < buy_new_sl pos primary then some (buy_new_sl pos primary)
          else none
        else none
      else
        if pos.current_price < pos.open_price then
          if pos.sl = 0 ∨ sell_new_sl pos primary < pos.sl then
            some (sell_new_sl pos primary)
          else none
        else none

/-! ## Helper lemmas: association lists -/

theorem alookup_upsert_self {κ β : Type} [DecidableEq κ]
    (l : List (κ × β)) (k : κ) (v : β) :
    alookup (upsert l k v) k = some v := by
  induction l with
  | nil => simp [upsert, alookup]
  | cons p rest ih =>
      obtain ⟨k', v'⟩ := p
      by_cases h : k = k' <;> simp [upsert, alookup, h, ih]

theorem alookup_upsert_ne {κ β : Type} [DecidableEq κ]
    (l : List (κ × β)) (k a : κ) (v : β) (h : a ≠ k) :
    alookup (upsert l k v) a = alookup l a := by
  induction l with
  | nil => simp [upsert, alookup, h]
  | cons p rest ih =>
      obtain ⟨k', v'⟩ := p
      by_cases hk : k = k'
      · subst hk
        simp [upsert, alookup, h]
      · by_cases ha : a = k' <;> simp [upsert, alookup, hk, ha, ih]

theorem alookup_some_mem {κ β : Type} [DecidableEq κ]
    (l : List (κ × β)) (a : κ) (v : β) (h : alookup l a = some v) :
    (a, v) ∈ l := by
  induction l with
  | nil => simp [alookup] at h
  | cons p rest ih =>
      obtain ⟨k', v'⟩ := p
      by_cases ha : a = k'
      · subst ha
        simp [alookup] at h
        simp [h]
      · simp [alookup, ha] at h
        exact List.mem_cons_of_mem _ (ih h)

/-! ## Helper lemmas: banker's rounding -/

theorem roundHalfEven_le (q : ℚ) : (roundHalfEven q : ℚ) ≤ q + 1/2 := by
  have h1 : (⌊q⌋ : ℚ) ≤ q := Int.floor_le q
  have h2 : q < ⌊q⌋ + 1 := Int.lt_floor_add_one q
  unfold roundHalfEven
  split_ifs <;> push_cast <;> linarith

theorem le_roundHalfEven (q : ℚ) : q - 1/2 ≤ (roundHalfEven q : ℚ) := by
  have h1 : (⌊q⌋ : ℚ) ≤ q := Int.floor_le q
  have h2 : q < ⌊q⌋ + 1 := Int.lt_floor_add_one q
  unfold roundHalfEven
  split_ifs <;> push_cast <;> linarith

theorem roundHalfEven_le_floor_add_one (q : ℚ) :
    roundHalfEven q ≤ ⌊q⌋ + 1 := by
  unfold roundHalfEven
  split_ifs <;> omega

theorem floor_le_roundHalfEven (q : ℚ) : ⌊q⌋ ≤ roundHalfEven q := by
  unfold roundHalfEven
  split_ifs <;> omega

theorem roundHalfEven_mono {q q' : ℚ} (h : q ≤ q') :
    roundHalfEven q ≤ roundHalfEven q' := by
  have hf : ⌊q⌋ ≤ ⌊q'⌋ := Int.floor_le_floor h
  rcases lt_or_eq_of_le hf with hlt | heq
  · calc roundHalfEven q ≤ ⌊q⌋ + 1 := roundHalfEven_le_floor_add_one q
      _ ≤ ⌊q'⌋ := by omega
      _ ≤ roundHalfEven q' := floor_le_roundHalfEven q'
  · have hr : q - ⌊q⌋ ≤ q' - ⌊q'⌋ := by
      rw [← heq]; linarith
    unfold roundHalfEven
    rw [← heq]
    split_ifs <;> first | omega | linarith

theorem roundTo2_mono {q q' : ℚ} (h : q ≤ q') : roundTo2 q ≤ roundTo2 q' := by
  unfold roundTo2
  have := @roundHalfEven_mono (100 * q) (100 * q') (by linarith)
  have hc : (roundHalfEven (100 * q) : ℚ) ≤ (roundHalfEven (100 * q') : ℚ) := by
    exact_mod_cast this
  linarith

/-! ## Helper lemmas: position sizing -/

/-- The product of the two risk attenuations of
`calculate_position_size` (consecutive-loss halving, negative-daily-P/L
0.75 factor). -/
def risk_mult (st : RMState) : ℚ :=
  (if 3 ≤ st.consecutive_losses then 1/2 else 1) *
    (if st.daily_pnl < 0 then 3/4 else 1)

/-- The denominator of the lot-size conversion: guarded stop distance
times the per-symbol unit value. -/
def size_denom (sl_pips : ℚ) (symbol : String) : ℚ :=
  (if sl_pips ≤ 0 then 50 else sl_pips) *
    (if symbol = "XAUUSD" then 1 else if pyIn "USTECH" symbol then 1 else 10)

theorem risk_mult_pos (st : RMState) : 0 < risk_mult st := by
  unfold risk_mult
  split_ifs <;> norm_num

theorem size_denom_pos (sl_pips : ℚ) (symbol : String) :
    0 < size_denom sl_pips symbol := by
  unfold size_denom
  apply mul_pos
  · split_ifs with h1
    · norm_num
    · linarith [not_le.mp h1]
  · split_ifs <;> norm_num

theorem calculate_position_size_eq (cfg : RMConfig) (st : RMState)
    (balance confidence sl_pips : ℚ) (symbol : String) :
    calculate_position_size cfg st balance confidence sl_pips symbol =
      roundTo2 (max (1/100) (min 10
        (balance * cfg.max_risk_per_trade * risk_mult st * confidence /
          size_denom sl_pips symbol))) := by
  unfold calculate_position_size risk_mult size_denom
  split_ifs <;>
    exact congrArg (fun y => roundTo2 (max (1/100) (min 10 y))) (by ring)

theorem clamp_lot_nonpos {x : ℚ} (h : x ≤ 0) :
    max (1/100) (min 10 x) = 1/100 := by
  have h1 : min 10 x ≤ (1/100 : ℚ) := by
    have := min_le_right (10 : ℚ) x
    linarith
  exact max_eq_left h1

theorem roundTo2_clamp_range (x : ℚ) :
    1/100 ≤ roundTo2 (max (1/100) (min 10 x)) ∧
      roundTo2 (max (1/100) (min 10 x)) ≤ 10 := by
  set y := max (1/100) (min 10 x) with hy
  have hy1 : (1/100 : ℚ) ≤ y := le_max_left _ _
  have hy2 : y ≤ 10 := by
    have h10 : min 10 x ≤ (10 : ℚ) := min_le_left _ _
    have : y = max (1/100) (min 10 x) := hy
    rw [this]
    exact max_le (by norm_num) h10
  have hlo : (1 : ℚ) - 1/2 ≤ (roundHalfEven (100 * y) : ℚ) := by
    have := le_roundHalfEven (100 * y)
    linarith
  have hhi : (roundHalfEven (100 * y) : ℚ) ≤ 1000 + 1/2 := by
    have := roundHalfEven_le (100 * y)
    linarith
  have hlo' : 1 ≤ roundHalfEven (100 * y) := by
    have h0 : (0 : ℚ) < (roundHalfEven (100 * y) : ℚ) := by linarith
    have : (0 : ℤ) < roundHalfEven (100 * y) := by exact_mod_cast h0
    omega
  have hhi' : roundHalfEven (100 * y) ≤ 1000 := by
    have h0 : (roundHalfEven (100 * y) : ℚ) < 1001 := by linarith
    have : roundHalfEven (100 * y) < 1001 := by exact_mod_cast h0
    omega
  have hlo'' : (1 : ℚ) ≤ (roundHalfEven (100 * y) : ℚ) := by exact_mod_cast hlo'
  have hhi'' : (roundHalfEven (100 * y) : ℚ) ≤ 1000 := by exact_mod_cast hhi'
  unfold roundTo2
  constructor <;> [linarith; linarith]

/-- The position size is in [0.01, 10] after rounding, for all inputs. -/
theorem calculate_position_size_range (cfg : RMConfig) (st : RMState)
    (balance confidence sl_pips : ℚ) (symbol : String) :
    1/100 ≤ calculate_position_size cfg st balance confidence sl_pips symbol ∧
      calculate_position_size cfg st balance confidence sl_pips symbol ≤ 10 := by
  rw [calculate_position_size_eq]
  exact roundTo2_clamp_range _

/-! ## Claim theorems: risk manager -/

/-- C4: for every fixed balance, stop distance, symbol and risk-manager
state, `calculate_position_size` is monotonically non-decreasing in
confidence over [0,1], and its output always lies in [0.01, 10.0] after
rounding to 2 decimal places; the size is base risk × confidence, halved
when consecutive losses ≥ 3, further ×0.75 when the daily P/L is
negative, converted via risk amount / (stop distance × unit value),
clamped and rounded (the shape proved by `calculate_position_size_eq`). -/
theorem C4_position_size_monotone_and_clamped :
    (∀ (cfg : RMConfig) (st : RMState) (balance sl_pips c₁ c₂ : ℚ)
        (symbol : String), 0 ≤ c₁ → c₁ ≤ c₂ → c₂ ≤ 1 →
      calculate_position_size cfg st balance c₁ sl_pips symbol ≤
        calculate_position_size cfg st balance c₂ sl_pips symbol) ∧
    (∀ (cfg : RMConfig) (st : RMState) (balance confidence sl_pips : ℚ)
        (symbol : String),
      1/100 ≤ calculate_position_size cfg st balance confidence sl_pips symbol ∧
        calculate_position_size cfg st balance confidence sl_pips symbol ≤ 10) := by
  constructor
  · intro cfg st balance sl_pips c₁ c₂ symbol h0 h12 _h21
    rw [calculate_position_size_eq, calculate_position_size_eq]
    set K := balance * cfg.max_risk_per_trade * risk_mult st with hK
    have hD : 0 < size_denom sl_pips symbol := size_denom_pos sl_pips symbol
    rcases le_or_lt 0 K with hKs | hKs
    · apply roundTo2_mono
      have hnum : K * c₁ ≤ K * c₂ := mul_le_mul_of_nonneg_left h12 hKs
      have : K * c₁ / size_denom sl_pips symbol ≤
          K * c₂ / size_denom sl_pips symbol :=
        div_le_div_of_nonneg_right hnum hD.le
      exact max_le_max le_rfl (min_le_min le_rfl this)
    · have hc2 : 0 ≤ c₂ := le_trans h0 h12
      have h1 : K * c₁ / size_denom sl_pips symbol ≤ 0 := by
        apply div_nonpos_of_nonpos_of_nonneg _ hD.le
        nlinarith
      have h2 : K * c₂ / size_denom sl_pips symbol ≤ 0 := by
        apply div_nonpos_of_nonpos_of_nonneg _ hD.le
        nlinarith
      rw [clamp_lot_nonpos h1, clamp_lot_nonpos h2]
  · intro cfg st balance confidence sl_pips symbol
    exact calculate_position_size_range cfg st balance confidence sl_pips symbol

/-- Witness for C4 at concrete inputs. -/
theorem C4_witness :
    (0 : ℚ) ≤ 1/2 ∧ (1/2 : ℚ) ≤ 3/4 ∧ (3/4 : ℚ) ≤ 1 ∧
    calculate_position_size ⟨5/100, 100⟩ ⟨0, 0, 0, 0, 5, [], []⟩
        1000 (1/2) 50 "EURUSD" ≤
      calculate_position_size ⟨5/100, 100⟩ ⟨0, 0, 0, 0, 5, [], []⟩
        1000 (3/4) 50 "EURUSD" :=
  ⟨by norm_num, by norm_num, by norm_num,
    C4_position_size_monotone_and_clamped.1 ⟨5/100, 100⟩ ⟨0, 0, 0, 0, 5, [], []⟩
      1000 50 (1/2) (3/4) "EURUSD" (by norm_num) (by norm_num) (by norm_num)⟩

/-- C10: a call to `calculate_position_size` with stop distance ≤ 0 is
guarded by substituting a default stop distance of 50, so the function
is total (no division by zero or negative stop) and still returns a lot
size in [0.01, 10.0]. -/
theorem C10_sl_pips_guard :
    ∀ (cfg : RMConfig) (st : RMState) (balance confidence sl_pips : ℚ)
      (symbol : String), sl_pips ≤ 0 →
      calculate_position_size cfg st balance confidence sl_pips symbol =
        calculate_position_size cfg st balance confidence 50 symbol ∧
      1/100 ≤ calculate_position_size cfg st balance confidence sl_pips symbol ∧
        calculate_position_size cfg st balance confidence sl_pips symbol ≤ 10 := by
  intro cfg st balance confidence sl_pips symbol h
  refine ⟨?_, calculate_position_size_range cfg st balance confidence sl_pips
    symbol⟩
  rw [calculate_position_size_eq, calculate_position_size_eq]
  have hd : size_denom sl_pips symbol = size_denom 50 symbol := by
    unfold size_denom
    rw [if_pos h, if_neg (by norm_num : ¬ (50 : ℚ) ≤ 0)]
  rw [hd]

/-- Witness for C10 at a concrete input with a negative stop distance. -/
theorem C10_witness :
    (-7 : ℚ) ≤ 0 ∧
    calculate_position_size ⟨5/100, 100⟩ ⟨0, 0, 0, 0, 5, [], []⟩
        1000 (1/2) (-7) "XAUUSD" =
      calculate_position_size ⟨5/100, 100⟩ ⟨0, 0, 0, 0, 5, [], []⟩
        1000 (1/2) 50 "XAUUSD" :=
  ⟨by norm_num,
    (C10_sl_pips_guard ⟨5/100, 100⟩ ⟨0, 0, 0, 0, 5, [], []⟩ 1000 (1/2) (-7)
      "XAUUSD" (by norm_num)).1⟩

/-- C5: `can_trade` returns false exactly when the (post-rotation) daily
trade count has reached the configured daily maximum or the
consecutive-loss count has reached the breaker threshold, with a
non-empty reason in those cases; in every other state it returns true
(so the verdict is true iff neither bound is hit). -/
theorem C5_can_trade_gate :
    ∀ (cfg : RMConfig) (today : ℕ) (st : RMState),
      ((can_trade cfg today st).2.1 = false ↔
        cfg.max_daily_trades ≤ (reset_daily_if_needed today st).daily_trades ∨
          (reset_daily_if_needed today st).max_consecutive_losses ≤
            (reset_daily_if_needed today st).consecutive_losses) ∧
      ((can_trade cfg today st).2.1 = false →
        (can_trade cfg today st).2.2 ≠ "") := by
  intro cfg today st
  simp only [can_trade]
  split_ifs with h1 h2 <;> simp_all

/-- Witness for C5: breaker threshold hit at a concrete state. -/
theorem C5_witness :
    (can_trade ⟨5/100, 100⟩ 0 ⟨0, 0, 0, 6, 5, [], []⟩).2.1 = false :=
  (C5_can_trade_gate ⟨5/100, 100⟩ 0 ⟨0, 0, 0, 6, 5, [], []⟩).1.mpr
    (Or.inr (by simp [reset_daily_if_needed]))

/-- C6 (amended): at the first call observing a new calendar date, the
prior day's aggregate is flushed as a daily-summary row — provided at
least one trade closed on the prior `last_reset` date; a day with no
closed trades flushes nothing — computed from the pre-reset ledger,
before the daily counters are reset to zero, and a repeated call on the
same date does not reset again. -/
theorem C6_daily_rollover :
    ∀ (today : ℕ) (st : RMState), today ≠ st.last_reset →
      ((closed_on st st.last_reset).length ≠ 0 →
        alookup (reset_daily_if_needed today st).daily_summary st.last_reset =
          some (daily_aggregate st st.last_reset)) ∧
      (reset_daily_if_needed today st).daily_trades = 0 ∧
      (reset_daily_if_needed today st).daily_pnl = 0 ∧
      (reset_daily_if_needed today st).last_reset = today ∧
      reset_daily_if_needed today (reset_daily_if_needed today st) =
        reset_daily_if_needed today st := by
  intro today st h
  have hlast : (reset_daily_if_needed today st).last_reset = today := by
    simp [reset_daily_if_needed, h]
  refine ⟨?_, ?_, ?_, hlast, ?_⟩
  · intro hc
    simp only [reset_daily_if_needed, save_daily_summary, if_pos h, if_pos hc]
    exact alookup_upsert_self _ _ _
  · simp [reset_daily_if_needed, h]
  · simp [reset_daily_if_needed, h]
  · set st' := reset_daily_if_needed today st with hst'
    show reset_daily_if_needed today st' = st'
    simp [reset_daily_if_needed, hlast, ← hst']

/-- Witness for C6 at a state with one trade closed on the prior date. -/
theorem C6_witness :
    alookup (reset_daily_if_needed 1
        ⟨2, 5, 0, 0, 5, [⟨some 0, 10⟩], []⟩).daily_summary 0 =
      some (daily_aggregate ⟨2, 5, 0, 0, 5, [⟨some 0, 10⟩], []⟩ 0) ∧
    (reset_daily_if_needed 1 ⟨2, 5, 0, 0, 5, [⟨some 0, 10⟩], []⟩).daily_trades
      = 0 :=
  ⟨((C6_daily_rollover 1 ⟨2, 5, 0, 0, 5, [⟨some 0, 10⟩], []⟩
      (by norm_num)).1 (by simp [closed_on])),
    (C6_daily_rollover 1 ⟨2, 5, 0, 0, 5, [⟨some 0, 10⟩], []⟩
      (by norm_num)).2.1⟩

/-- C6 counterexample: crossing the day boundary at a state with no
trades closed on the prior date resets the counters but writes no
daily-summary row for the prior day — refuting the claim that after the
boundary such a row always exists. -/
theorem C6_counterexample :
    (1 : ℕ) ≠ (⟨3, -5, 0, 1, 5, [], []⟩ : RMState).last_reset ∧
    (reset_daily_if_needed 1 ⟨3, -5, 0, 1, 5, [], []⟩).daily_trades = 0 ∧
    alookup (reset_daily_if_needed 1 ⟨3, -5, 0, 1, 5, [], []⟩).daily_summary 0
      = none := by
  refine ⟨by norm_num, ?_, ?_⟩ <;>
    simp [reset_daily_if_needed, save_daily_summary, closed_on, alookup]

/-! ## Helper lemmas: strategy-weight learning -/

theorem apply_signal_updates_not_mem (α : ℚ) (o d : String)
    (sigs : List (String × String)) (ws : List (String × ℚ)) (s : String)
    (h : s ∉ sigs.map Prod.fst) :
    alookup (apply_signal_updates α o d sigs ws) s = alookup ws s := by
  induction sigs generalizing ws with
  | nil => rfl
  | cons p rest ih =>
      obtain ⟨k, v⟩ := p
      simp only [List.map_cons, List.mem_cons, not_or] at h
      rw [show apply_signal_updates α o d ((k, v) :: rest) ws =
        apply_signal_updates α o d rest
          (upsert ws k (updatedWeight α o d v ((alookup ws k).getD 1))) from rfl]
      rw [ih _ h.2, alookup_upsert_ne _ _ _ _ h.1]

theorem apply_signal_updates_lookup (α : ℚ) (o d : String)
    (sigs : List (String × String)) (ws : List (String × ℚ)) (s sig : String)
    (hnd : (sigs.map Prod.fst).Nodup) (hmem : (s, sig) ∈ sigs) :
    alookup (apply_signal_updates α o d sigs ws) s =
      some (updatedWeight α o d sig ((alookup ws s).getD 1)) := by
  induction sigs generalizing ws with
  | nil => cases hmem
  | cons p rest ih =>
      obtain ⟨k, v⟩ := p
      simp only [List.map_cons, List.nodup_cons] at hnd
      rw [show apply_signal_updates α o d ((k, v) :: rest) ws =
        apply_signal_updates α o d rest
          (upsert ws k (updatedWeight α o d v ((alookup ws k).getD 1))) from rfl]
      rcases List.mem_cons.mp hmem with heq | hrest
      · obtain ⟨hs, hsig⟩ := Prod.mk.injEq .. ▸ heq
        subst hs; subst hsig
        rw [apply_signal_updates_not_mem _ _ _ _ _ _ hnd.1,
          alookup_upsert_self]
      · have hk : s ≠ k := by
          intro hsk
          exact hnd.1 (hsk ▸ List.mem_map_of_mem Prod.fst hrest)
        rw [ih _ hnd.2 hrest, alookup_upsert_ne _ _ _ _ hk]

theorem clampWeight_mem (w : ℚ) :
    1/10 ≤ clampWeight w ∧ clampWeight w ≤ 3 :=
  ⟨le_max_left _ _, max_le (by norm_num) (min_le_left _ _)⟩

theorem clampWeight_id {w : ℚ} (h1 : 1/10 ≤ w) (h2 : w ≤ 3) :
    clampWeight w = w := by
  unfold clampWeight
  rw [min_eq_right h2, max_eq_right h1]

theorem updatedWeight_mem (α : ℚ) (o d sig : String) (w : ℚ) :
    1/10 ≤ updatedWeight α o d sig w ∧ updatedWeight α o d sig w ≤ 3 := by
  simp only [updatedWeight]
  exact clampWeight_mem _

theorem win_agree_step (α w : ℚ) (o d : String) (ho : o = "win")
    (hα : 0 < α) (hw : 1/10 ≤ w) (hcl : w * (1 + α) ≤ 3) :
    updatedWeight α o d d w = w * (1 + α) ∧ w < updatedWeight α o d d w := by
  have hwpos : (0 : ℚ) < w := lt_of_lt_of_le (by norm_num) hw
  have hlt : w < w * (1 + α) := by nlinarith
  have he : updatedWeight α o d d w = clampWeight (w * (1 + α)) := by
    simp [updatedWeight, ho]
  rw [he, clampWeight_id (by linarith) hcl]
  exact ⟨rfl, hlt⟩

theorem loss_disagree_step (α w : ℚ) (o d sig : String) (ho : o ≠ "win")
    (hs : sig ≠ d) (hα : 0 < α) (hw : 1/10 ≤ w)
    (hcl : w * (1 + α * (1/2)) ≤ 3) :
    updatedWeight α o d sig w = w * (1 + α * (1/2)) ∧
      w < updatedWeight α o d sig w := by
  have hwpos : (0 : ℚ) < w := lt_of_lt_of_le (by norm_num) hw
  have hlt : w < w * (1 + α * (1/2)) := by nlinarith
  have he : updatedWeight α o d sig w = clampWeight (w * (1 + α * (1/2))) := by
    simp [updatedWeight, ho, hs]
  rw [he, clampWeight_id (by linarith) hcl]
  exact ⟨rfl, hlt⟩

/-! ## Claim theorems: learning update -/

/-- C2: on every closed trade, for each strategy in the trade's signal
snapshot, the stored weight (default 1.0 if unseen) is multiplied by
(1+α) on win+agree, (1−α/2) on win+disagree, (1−α) on loss+agree and
(1+α/2) on loss+disagree, then clamped to [0.1, 3.0] (first conjunct:
the updated map holds exactly `updatedWeight` of the old value); every
post-update weight lies in [0.1, 3.0] (second conjunct); and for α > 0
with no clamp hit, an agreeing strategy over 3 consecutive wins, or a
disagreeing one over 3 consecutive losses, strictly increases at each
update (remaining conjuncts). -/
theorem C2_weight_update :
    (∀ (α : ℚ) (mem : TradeMemoryW) (ws : List (String × ℚ)) (s sig : String),
      (mem.strategy_signals.map Prod.fst).Nodup →
      (s, sig) ∈ mem.strategy_signals →
      alookup (update_strategy_weights α mem ws) s =
        some (updatedWeight α mem.outcome mem.direction sig
          ((alookup ws s).getD 1))) ∧
    (∀ (α : ℚ) (o d sig : String) (w : ℚ),
      1/10 ≤ updatedWeight α o d sig w ∧ updatedWeight α o d sig w ≤ 3) ∧
    (∀ (α : ℚ) (d : String) (w : ℚ), 0 < α → 1/10 ≤ w →
      w * (1 + α) ^ 3 ≤ 3 →
      w < updatedWeight α "win" d d w ∧
      updatedWeight α "win" d d w <
        updatedWeight α "win" d d (updatedWeight α "win" d d w) ∧
      updatedWeight α "win" d d (updatedWeight α "win" d d w) <
        updatedWeight α "win" d d
          (updatedWeight α "win" d d (updatedWeight α "win" d d w))) ∧
    (∀ (α : ℚ) (o d sig : String) (w : ℚ), o ≠ "win" → sig ≠ d → 0 < α →
      1/10 ≤ w → w * (1 + α * (1/2)) ^ 3 ≤ 3 →
      w < updatedWeight α o d sig w ∧
      updatedWeight α o d sig w <
        updatedWeight α o d sig (updatedWeight α o d sig w) ∧
      updatedWeight α o d sig (updatedWeight α o d sig w) <
        updatedWeight α o d sig
          (updatedWeight α o d sig (updatedWeight α o d sig w))) := by
  refine ⟨?_, ?_, ?_, ?_⟩
  · intro α mem ws s sig hnd hmem
    exact apply_signal_updates_lookup α mem.outcome mem.direction
      mem.strategy_signals ws s sig hnd hmem
  · intro α o d sig w
    exact updatedWeight_mem α o d sig w
  · intro α d w hα hw hcap
    have hwpos : (0 : ℚ) < w := lt_of_lt_of_le (by norm_num) hw
    have h1α : (0 : ℚ) < 1 + α := by linarith
    have hcap' : w * (1 + α) * (1 + α) * (1 + α) ≤ 3 := by nlinarith
    have h01 : w < w * (1 + α) := by nlinarith
    have h12 : w * (1 + α) < w * (1 + α) * (1 + α) := by
      nlinarith [mul_pos (mul_pos hwpos h1α) hα]
    have h23 : w * (1 + α) * (1 + α) <
        w * (1 + α) * (1 + α) * (1 + α) := by
      nlinarith [mul_pos (mul_pos (mul_pos hwpos h1α) h1α) hα]
    have hc1 : w * (1 + α) ≤ 3 := by linarith
    have hc2 : w * (1 + α) * (1 + α) ≤ 3 := by linarith
    rw [(win_agree_step α w "win" d rfl hα hw hc1).1]
    rw [(win_agree_step α (w * (1 + α)) "win" d rfl hα (by linarith) hc2).1]
    rw [(win_agree_step α (w * (1 + α) * (1 + α)) "win" d rfl hα (by linarith)
      hcap').1]
    exact ⟨h01, h12, h23⟩
  · intro α o d sig w ho hs hα hw hcap
    have hwpos : (0 : ℚ) < w := lt_of_lt_of_le (by norm_num) hw
    have hβ : (0 : ℚ) < α * (1/2) := by linarith
    have h1β : (0 : ℚ) < 1 + α * (1/2) := by linarith
    have hcap' : w * (1 + α * (1/2)) * (1 + α * (1/2)) * (1 + α * (1/2)) ≤ 3 :=
      by nlinarith
    have h01 : w < w * (1 + α * (1/2)) := by nlinarith
    have h12 : w * (1 + α * (1/2)) <
        w * (1 + α * (1/2)) * (1 + α * (1/2)) := by
      nlinarith [mul_pos (mul_pos hwpos h1β) hβ]
    have h23 : w * (1 + α * (1/2)) * (1 + α * (1/2)) <
        w * (1 + α * (1/2)) * (1 + α * (1/2)) * (1 + α * (1/2)) := by
      nlinarith [mul_pos (mul_pos (mul_pos hwpos h1β) h1β) hβ]
    have hc1 : w * (1 + α * (1/2)) ≤ 3 := by linarith
    have hc2 : w * (1 + α * (1/2)) * (1 + α * (1/2)) ≤ 3 := by linarith
    rw [(loss_disagree_step α w o d sig ho hs hα hw hc1).1]
    rw [(loss_disagree_step α (w * (1 + α * (1/2))) o d sig ho hs hα
      (by linarith) hc2).1]
    rw [(loss_disagree_step α (w * (1 + α * (1/2)) * (1 + α * (1/2))) o d sig
      ho hs hα (by linarith) hcap').1]
    exact ⟨h01, h12, h23⟩

/-- Witness for C2: a single-strategy snapshot on a winning agreeing
trade, at the default learning rate α = 0.01, starting from the default
weight 1.0. -/
theorem C2_witness :
    alookup (update_strategy_weights (1/100)
        ⟨"buy", 5, [("macd_momentum", "buy")], "win"⟩ []) "macd_momentum" =
      some (updatedWeight (1/100) "win" "buy" "buy"
        ((alookup ([] : List (String × ℚ)) "macd_momentum").getD 1)) ∧
    (1 : ℚ) < updatedWeight (1/100) "win" "buy" "buy" 1 :=
  ⟨C2_weight_update.1 (1/100) ⟨"buy", 5, [("macd_momentum", "buy")], "win"⟩ []
      "macd_momentum" "buy" (by simp) (by simp),
    (C2_weight_update.2.2.1 (1/100) "buy" 1 (by norm_num) (by norm_num)
      (by norm_num)).1⟩

/-- C9 counterexample: a stored weight of 5.0 (outside the clamp range)
is returned raw by `get_strategy_weight` — it is not re-clamped into
[0.1, 3.0] on read, and is neither in range nor the default 1.0. -/
theorem C9_counterexample :
    get_strategy_weight [("macd_momentum", 5)] "macd_momentum" = 5 ∧
    ¬ ((5 : ℚ) ≤ 3) ∧ (5 : ℚ) ≠ 1 := by
  refine ⟨?_, by norm_num, by norm_num⟩
  simp [get_strategy_weight, alookup]

/-- C9 (amended): `get_strategy_weight` returns the raw stored value
(default 1.0 for an unseen strategy) with no re-clamping on read; an
out-of-range stored value is returned as-is. Consequently the read value
lies in [0.1, 3.0] whenever every stored weight does (clamping being
enforced by the update path, not the read path). -/
theorem C9_read_is_raw :
    (∀ (ws : List (String × ℚ)) (name : String),
      get_strategy_weight ws name = (alookup ws name).getD 1) ∧
    (∀ (ws : List (String × ℚ)) (name : String),
      (∀ p ∈ ws, 1/10 ≤ p.2 ∧ p.2 ≤ 3) →
      1/10 ≤ get_strategy_weight ws name ∧ get_strategy_weight ws name ≤ 3) := by
  constructor
  · intro ws name
    rfl
  · intro ws name h
    unfold get_strategy_weight
    rcases hl : alookup ws name with _ | v
    · norm_num
    · simpa using h (name, v) (alookup_some_mem ws name v hl)

/-- Witness for C9 at a concrete in-range stored map. -/
theorem C9_witness :
    1/10 ≤ get_strategy_weight [("vwap", 2)] "vwap" ∧
      get_strategy_weight [("vwap", 2)] "vwap" ≤ 3 :=
  C9_read_is_raw.2 [("vwap", 2)] "vwap"
    (by rintro p hp; simp only [List.mem_singleton] at hp; subst hp; norm_num)

/-! ## Claim theorems: position-exit engine and trailing stop -/

/-- C3: `should_close_position` evaluates the weighted-consensus rule
before the regime-shift rule: when the opposing weight fraction exceeds
0.6 (with positive total weight) the position closes with the consensus
rationale regardless of the regime; when the consensus rule does not
fire, the result is a close exactly when the regime-shift condition
holds. -/
theorem C3_exit_rule_order :
    ∀ (ws : List (String × ℚ)) (pos : PositionE) (signals : List TradeSignalE)
      (regime : MarketRegime),
      (0 < (opposing_totals ws pos.symbol pos.type signals).2 ∧
          3/5 < (opposing_totals ws pos.symbol pos.type signals).1 /
            (opposing_totals ws pos.symbol pos.type signals).2 →
        should_close_position ws pos signals regime =
          (true, "Majority of strategies now opposing position")) ∧
      (¬ (0 < (opposing_totals ws pos.symbol pos.type signals).2 ∧
          3/5 < (opposing_totals ws pos.symbol pos.type signals).1 /
            (opposing_totals ws pos.symbol pos.type signals).2) →
        ((should_close_position ws pos signals regime).1 = true ↔
          (pos.type = "buy" ∧ regime.regime = "trending_bearish" ∧
            7/10 < regime.confidence) ∨
          (pos.type = "sell" ∧ regime.regime = "trending_bullish" ∧
            7/10 < regime.confidence))) := by
  intro ws pos signals regime
  constructor
  · intro h
    simp only [should_close_position]
    rw [if_pos h]
  · intro h
    simp only [should_close_position]
    rw [if_neg h]
    split_ifs with hA hB
    · simpa using Or.inl hA
    · simpa using Or.inr hB
    · simp only [Bool.false_eq_true, false_iff]
      rintro (hc | hc)
      · exact hA hc
      · exact hB hc

/-- Witness for C3: one heavily opposing sell signal on a long position
closes by consensus even though the regime-shift condition also holds. -/
theorem C3_witness :
    should_close_position [] ⟨1, "XAUUSD", "buy", 1, 100, 101, 1, 0, 110⟩
        [⟨Signal.sell, "vwap", "XAUUSD", 7/10⟩]
        ⟨"trending_bearish", 9/10, "Strong downtrend across multiple timeframes"⟩
      = (true, "Majority of strategies now opposing position") :=
  (C3_exit_rule_order [] ⟨1, "XAUUSD", "buy", 1, 100, 101, 1, 0, 110⟩
      [⟨Signal.sell, "vwap", "XAUUSD", 7/10⟩]
      ⟨"trending_bearish", 9/10,
        "Strong downtrend across multiple timeframes"⟩).1
    (by norm_num [opposing_totals, get_strategy_weight, alookup])

/-- C7: the trailing step never moves a stop against the position — the
modify call is issued only when the new stop strictly tightens the old
one: for a long position the issued stop is strictly above the old stop,
and for a short position with a non-zero stop strictly below it.
(`trail_stop` returns exactly the `sl` value passed to the broker modify
call, the only position field the call mutates.) -/
theorem C7_trailing_never_loosens :
    ∀ (pos : PositionE) (primary : Option TimeframeAnalysis) (s : ℚ),
      (pos.type = "buy" → trail_stop pos primary = some s → pos.sl < s) ∧
      (pos.type ≠ "buy" → pos.sl ≠ 0 → trail_stop pos primary = some s →
        s < pos.sl) := by
  intro pos primary s
  cases primary with
  | none =>
      constructor
      · intro _ he
        cases he
      · intro _ _ he
        cases he
  | some p =>
      constructor
      · intro hb he
        rw [show trail_stop pos (some p) =
          (if pos.type = "buy" then
            if pos.open_price < pos.current_price then
              if pos.sl < buy_new_sl pos p then some (buy_new_sl pos p)
              else none
            else none
          else
            if pos.current_price < pos.open_price then
              if pos.sl = 0 ∨ sell_new_sl pos p < pos.sl then
                some (sell_new_sl pos p)
              else none
            else none) from rfl, if_pos hb] at he
        by_cases h1 : pos.open_price < pos.current_price
        · rw [if_pos h1] at he
          by_cases h2 : pos.sl < buy_new_sl pos p
          · rw [if_pos h2] at he
            injection he with he
            exact he ▸ h2
          · rw [if_neg h2] at he
            exact Option.noConfusion he
        · rw [if_neg h1] at he
          exact Option.noConfusion he
      · intro hb h0 he
        rw [show trail_stop pos (some p) =
          (if pos.type = "buy" then
            if pos.open_price < pos.current_price then
              if pos.sl < buy_new_sl pos p then some (buy_new_sl pos p)
              else none
            else none
          else
            if pos.current_price < pos.open_price then
              if pos.sl = 0 ∨ sell_new_sl pos p < pos.sl then
                some (sell_new_sl pos p)
              else none
            else none) from rfl, if_neg hb] at he
        by_cases h1 : pos.current_price < pos.open_price
        · rw [if_pos h1] at he
          by_cases h2 : pos.sl = 0 ∨ sell_new_sl pos p < pos.sl
          · rw [if_pos h2] at he
            injection he with he
            rcases h2 with hz | hlt
            · exact absurd hz h0
            · exact he ▸ hlt
          · rw [if_neg h2] at he
            exact Option.noConfusion he
        · rw [if_neg h1] at he
          exact Option.noConfusion he

/-- Witness for C7: a profitable long with no stop gets its stop raised
(strictly tightened) to break-even. -/
theorem C7_witness :
    trail_stop ⟨1, "XAUUSD", "buy", 1, 100, 101, 1, 0, 110⟩
        (some ⟨"bullish", 1, "neutral", "normal", [], []⟩) = some 100 ∧
    (⟨1, "XAUUSD", "buy", 1, 100, 101, 1, 0, 110⟩ : PositionE).sl < 100 := by
  have he : trail_stop ⟨1, "XAUUSD", "buy", 1, 100, 101, 1, 0, 110⟩
      (some ⟨"bullish", 1, "neutral", "normal", [], []⟩) = some 100 := by
    norm_num [trail_stop, buy_new_sl, trail_atr_level, profit_pips, alookup]
  exact ⟨he, (C7_trailing_never_loosens
    ⟨1, "XAUUSD", "buy", 1, 100, 101, 1, 0, 110⟩
    (some ⟨"bullish", 1, "neutral", "normal", [], []⟩) 100).1 rfl he⟩

/-- C8: the analyzer's `key_levels` dict never contains the key
"bb_middle" that `_trail_stop` looks up, so the lookup always falls back
to the entry price: on a long position 1% in profit (past the 0.5%
threshold) whose primary timeframe has a band midpoint of 100.5 above
the 100 entry, the stop is raised only to 100 (break-even), not to the
reference level — the reference-level branch of the claim is dead code. -/
theorem C8_reference_level_dead :
    "bb_middle" ∉ analyze_key_levels_keys ∧
    trail_stop ⟨2, "XAUUSD", "buy", 1, 100, 101, 1, 0, 110⟩
        (some ⟨"bullish", 9/10, "neutral", "normal",
          [("resistance", 102), ("support", 99), ("pivot", 100),
           ("bb_upper", 203/2), ("bb_lower", 199/2), ("sma_200", 101)],
          []⟩) = some 100 ∧
    (100 : ℚ) < (203/2 + 199/2) / 2 := by
  refine ⟨by decide, ?_, by norm_num⟩
  have ha : trail_atr_level ⟨2, "XAUUSD", "buy", 1, 100, 101, 1, 0, 110⟩
      ⟨"bullish", 9/10, "neutral", "normal",
        [("resistance", 102), ("support", 99), ("pivot", 100),
         ("bb_upper", 203/2), ("bb_lower", 199/2), ("sma_200", 101)], []⟩
      = 100 := by
    simp [trail_atr_level, alookup]
  norm_num [trail_stop, buy_new_sl, profit_pips, ha]

/-! ## Helper lemmas: regime classifier -/

theorem alookup_getD_pos {l : List (String × ℚ)} (hl : ∀ p ∈ l, 0 < p.2)
    {d : ℚ} (hd : 0 < d) (k : String) : 0 < (alookup l k).getD d := by
  rcases h : alookup l k with _ | v
  · simpa using hd
  · simpa using hl _ (alookup_some_mem _ _ _ h)

theorem weightOf_pos (tf : String) : 0 < weightOf tf := by
  unfold weightOf
  apply alookup_getD_pos _ (by norm_num) tf
  intro p hp
  unfold timeframe_weights at hp
  fin_cases hp <;> norm_num

theorem regimeScores_cons_total (tf : String) (a : TimeframeAnalysis)
    (rest : List (String × TimeframeAnalysis)) :
    (regimeScores ((tf, a) :: rest)).2.2 =
      (regimeScores rest).2.2 + weightOf tf := by
  simp only [regimeScores]
  split_ifs <;> rfl

theorem regimeScores_total_nonneg (l : List (String × TimeframeAnalysis)) :
    0 ≤ (regimeScores l).2.2 := by
  induction l with
  | nil => norm_num [regimeScores]
  | cons p rest ih =>
      obtain ⟨tf, a⟩ := p
      rw [regimeScores_cons_total]
      have := weightOf_pos tf
      linarith

theorem regimeScores_total_pos (l : List (String × TimeframeAnalysis))
    (h : l ≠ []) : 0 < (regimeScores l).2.2 := by
  cases l with
  | nil => exact absurd rfl h
  | cons p rest =>
      obtain ⟨tf, a⟩ := p
      rw [regimeScores_cons_total]
      have h1 := weightOf_pos tf
      have h2 := regimeScores_total_nonneg rest
      linarith

theorem regimeScores_all_bullish (l : List (String × TimeframeAnalysis))
    (h : ∀ p ∈ l, pyIn "bullish" p.2.trend = true ∧ p.2.strength = 1) :
    (regimeScores l).1 = (regimeScores l).2.2 ∧ (regimeScores l).2.1 = 0 := by
  induction l with
  | nil => exact ⟨rfl, rfl⟩
  | cons p rest ih =>
      obtain ⟨tf, a⟩ := p
      obtain ⟨hb, hs⟩ := h (tf, a) (List.mem_cons_self _ _)
      have ihr := ih (fun q hq => h q (List.mem_cons_of_mem _ hq))
      simp only [regimeScores]
      rw [if_pos hb]
      refine ⟨?_, ihr.2⟩
      show (regimeScores rest).1 + weightOf tf * a.strength =
        (regimeScores rest).2.2 + weightOf tf
      rw [hs, ihr.1]
      ring

/-! ## Claim theorems: regime classifier -/

/-- C1: the regime classifier follows the exact decision order with
first match winning — empty input yields `unknown` with confidence 0;
otherwise, with bullish/bearish scores accumulated as weight × strength
over present timeframes and normalized by the total present weight,
the five branches fire in order (bullish trend, bearish trend, majority
high volatility, majority low volatility, ranging); and on any non-empty
all-bullish input with strength 1.0 the result is `trending_bullish`
with confidence 1.0. -/
theorem C1_regime_classifier :
    get_market_regime [] = ⟨"unknown", 0, "No data available"⟩ ∧
    (∀ (l : List (String × TimeframeAnalysis)), l ≠ [] →
      ((regimeScores l).1 / (regimeScores l).2.2 >
          (regimeScores l).2.1 / (regimeScores l).2.2 * (3/2) ∧
          (regimeScores l).1 / (regimeScores l).2.2 > 3/10 →
        get_market_regime l = ⟨"trending_bullish",
          min 1 ((regimeScores l).1 / (regimeScores l).2.2),
          "Strong uptrend across multiple timeframes"⟩) ∧
      (¬ ((regimeScores l).1 / (regimeScores l).2.2 >
          (regimeScores l).2.1 / (regimeScores l).2.2 * (3/2) ∧
          (regimeScores l).1 / (regimeScores l).2.2 > 3/10) →
        ((regimeScores l).2.1 / (regimeScores l).2.2 >
          (regimeScores l).1 / (regimeScores l).2.2 * (3/2) ∧
          (regimeScores l).2.1 / (regimeScores l).2.2 > 3/10) →
        get_market_regime l = ⟨"trending_bearish",
          min 1 ((regimeScores l).2.1 / (regimeScores l).2.2),
          "Strong downtrend across multiple timeframes"⟩) ∧
      (¬ ((regimeScores l).1 / (regimeScores l).2.2 >
          (regimeScores l).2.1 / (regimeScores l).2.2 * (3/2) ∧
          (regimeScores l).1 / (regimeScores l).2.2 > 3/10) →
        ¬ ((regimeScores l).2.1 / (regimeScores l).2.2 >
          (regimeScores l).1 / (regimeScores l).2.2 * (3/2) ∧
          (regimeScores l).2.1 / (regimeScores l).2.2 > 3/10) →
        (((l.filter (fun p => p.2.volatility = "high")).length : ℚ) >
          (l.length : ℚ) / 2 →
          get_market_regime l =
            ⟨"volatile", 3/5, "High volatility environment"⟩) ∧
        (¬ (((l.filter (fun p => p.2.volatility = "high")).length : ℚ) >
            (l.length : ℚ) / 2) →
          (((l.filter (fun p => p.2.volatility = "low")).length : ℚ) >
            (l.length : ℚ) / 2 →
            get_market_regime l =
              ⟨"consolidating", 3/5, "Low volatility, consolidation phase"⟩) ∧
          (¬ (((l.filter (fun p => p.2.volatility = "low")).length : ℚ) >
              (l.length : ℚ) / 2) →
            get_market_regime l =
              ⟨"ranging", 1/2, "Mixed signals, range-bound market"⟩)))) ∧
    (∀ (l : List (String × TimeframeAnalysis)), l ≠ [] →
      (∀ p ∈ l, pyIn "bullish" p.2.trend = true ∧ p.2.strength = 1) →
      get_market_regime l = ⟨"trending_bullish", 1,
        "Strong uptrend across multiple timeframes"⟩) := by
  refine ⟨rfl, ?_, ?_⟩
  · intro l hl
    have hw : 0 < (regimeScores l).2.2 := regimeScores_total_pos l hl
    have hemp : l.isEmpty = false := by
      cases l with
      | nil => exact absurd rfl hl
      | cons p rest => rfl
    refine ⟨?_, ?_, ?_⟩
    · intro h1
      simp only [get_market_regime, hemp, Bool.false_eq_true, if_false]
      rw [if_neg hw.ne', if_pos h1]
    · intro h1 h2
      simp only [get_market_regime, hemp, Bool.false_eq_true, if_false]
      rw [if_neg hw.ne', if_neg h1, if_pos h2]
    · intro h1 h2
      refine ⟨?_, ?_⟩
      · intro h3
        simp only [get_market_regime, hemp, Bool.false_eq_true, if_false]
        rw [if_neg hw.ne', if_neg h1, if_neg h2, if_pos h3]
      · intro h3
        refine ⟨?_, ?_⟩
        · intro h4
          simp only [get_market_regime, hemp, Bool.false_eq_true, if_false]
          rw [if_neg hw.ne', if_neg h1, if_neg h2, if_neg h3, if_pos h4]
        · intro h4
          simp only [get_market_regime, hemp, Bool.false_eq_true, if_false]
          rw [if_neg hw.ne', if_neg h1, if_neg h2, if_neg h3, if_neg h4]
  · intro l hl hall
    have hw : 0 < (regimeScores l).2.2 := regimeScores_total_pos l hl
    obtain ⟨hb, hz⟩ := regimeScores_all_bullish l hall
    have hemp : l.isEmpty = false := by
      cases l with
      | nil => exact absurd rfl hl
      | cons p rest => rfl
    have hbull : (regimeScores l).1 / (regimeScores l).2.2 = 1 := by
      rw [hb]
      exact div_self hw.ne'
    have hbear : (regimeScores l).2.1 / (regimeScores l).2.2 = 0 := by
      rw [hz]
      exact zero_div _
    simp only [get_market_regime, hemp, Bool.false_eq_true, if_false]
    rw [if_neg hw.ne', if_pos (by rw [hbull, hbear]; norm_num :
      (regimeScores l).1 / (regimeScores l).2.2 >
        (regimeScores l).2.1 / (regimeScores l).2.2 * (3/2) ∧
      (regimeScores l).1 / (regimeScores l).2.2 > 3/10)]
    rw [hbull]
    norm_num

/-- Witness for C1: a single strongly bullish timeframe at strength 1. -/
theorem C1_witness :
    get_market_regime
        [("H1", ⟨"strong_bullish", 1, "neutral", "normal", [], []⟩)] =
      ⟨"trending_bullish", 1, "Strong uptrend across multiple timeframes"⟩ :=
  C1_regime_classifier.2.2
    [("H1", ⟨"strong_bullish", 1, "neutral", "normal", [], []⟩)]
    (by simp)
    (by
      rintro p hp
      simp only [List.mem_singleton] at hp
      subst hp
      exact ⟨by decide, rfl⟩)

end OTrade
